import Mathlib

/-!
Verification of the attendance-verification core of the hub repository.

The definitions below are shallow embeddings of the TypeScript source:
* `src/server/models/Room.ts` — the attendance router: `getDistance`
  (haversine), `isPointInPolygon` (server ray cast), the `POST /` check-in
  pipeline (duplicate check, geofence, face verification, commit), and the
  `GET /check/:userId/:date` route (`hasMarkedToday`).
* `src/server/models/Attendance.ts` — the attendance record shape.
* `src/server/config/hostels.ts` — the `HostelBoundary` shape.
* `src/unnamed/part_003` — the client-side `isPointInPolygon` (axes swapped
  relative to the server's).

Coordinates and similarity scores are modelled over `ℚ` (the source uses
JS doubles; all the control decisions in the claims are order comparisons),
except the haversine distance which is genuinely trigonometric and is
modelled over `ℝ`.  Timestamps are modelled as integer milliseconds; the
source's `setHours(0,0,0,0)` day flooring is modelled as flooring to a
multiple of 86400000 ms.
-/

/-- A geographic point, `{latitude, longitude}` in decimal degrees
(`src/server/config/hostels.ts`). -/
structure GeoPoint where
  latitude : ℚ
  longitude : ℚ
deriving DecidableEq

/-- One iteration of the server's `isPointInPolygon` loop
(`src/server/models/Room.ts` lines 159-177): `cur` is `polygon[i]`,
`prev` is `polygon[j]`.  The server takes `xi = polygon[i].latitude` and
`yi = polygon[i].longitude`, so it straddles on longitude and compares the
interpolated latitude against the query latitude. -/
def serverCross (lat lon : ℚ) (cur prev : GeoPoint) : Bool :=
  (decide (cur.longitude > lon) != decide (prev.longitude > lon)) &&
    decide (lat <
      (prev.latitude - cur.latitude) * (lon - cur.longitude) /
        (prev.longitude - cur.longitude) + cur.latitude)

/-- One iteration of the client's `isPointInPolygon` loop
(`src/unnamed/part_003` lines 56-74): the client takes
`xi = polygon[i].longitude` and `yi = polygon[i].latitude`, so it straddles
on latitude and compares the interpolated longitude against the query
longitude. -/
def clientCross (lat lon : ℚ) (cur prev : GeoPoint) : Bool :=
  (decide (cur.latitude > lat) != decide (prev.latitude > lat)) &&
    decide (lon <
      (prev.longitude - cur.longitude) * (lat - cur.latitude) /
        (prev.latitude - cur.latitude) + cur.longitude)

/-- The `for (let i = 0, j = polygon.length - 1; i < polygon.length; j = i++)`
loop shared by both ray casts: `prev` threads the previous vertex, `inside`
toggles on each crossing. -/
def loopAux (f : GeoPoint → GeoPoint → Bool) :
    List GeoPoint → GeoPoint → Bool → Bool
  | [], _, inside => inside
  | c :: rest, prev, inside =>
      loopAux f rest c (if f c prev then !inside else inside)

/-- Server `isPointInPolygon` (`src/server/models/Room.ts` lines 159-177).
`j` starts at the last index, so the seed `prev` is the last vertex; an
empty polygon never runs the loop and yields `false`. -/
def isPointInPolygon (lat lon : ℚ) (polygon : List GeoPoint) : Bool :=
  match polygon.getLast? with
  | none => false
  | some s => loopAux (fun c p => serverCross lat lon c p) polygon s false

namespace Client

/-- Client `isPointInPolygon` (`src/unnamed/part_003` lines 56-74): same
loop with the axis roles of latitude and longitude swapped. -/
def isPointInPolygon (lat lon : ℚ) (polygon : List GeoPoint) : Bool :=
  match polygon.getLast? with
  | none => false
  | some s => loopAux (fun c p => clientCross lat lon c p) polygon s false

end Client

/-- The list of (current, previous) vertex pairs the loop actually visits:
`(p0, plast), (p1, p0), …, (plast, plast-1)`. -/
def edgeList (l : List GeoPoint) : List (GeoPoint × GeoPoint) :=
  match l.getLast? with
  | none => []
  | some s => l.zip (s :: l)

/-- The query point lies on the closed segment between vertices `a` and `b`
(collinear and within both coordinate ranges).  Used to state the
"not on an edge or vertex" side condition of the polygon claims. -/
def onSegment (lat lon : ℚ) (a b : GeoPoint) : Prop :=
  (lat - a.latitude) * (b.longitude - a.longitude) =
      (lon - a.longitude) * (b.latitude - a.latitude) ∧
    min a.latitude b.latitude ≤ lat ∧ lat ≤ max a.latitude b.latitude ∧
    min a.longitude b.longitude ≤ lon ∧ lon ≤ max a.longitude b.longitude

instance (lat lon : ℚ) (a b : GeoPoint) : Decidable (onSegment lat lon a b) := by
  unfold onSegment; infer_instance

/-- Vertex lies strictly north-east of the query point (both coordinate
comparisons strict, matching the half-open straddle convention of both
ray casts). -/
def inQuad (lat lon : ℚ) (v : GeoPoint) : Bool :=
  decide (v.latitude > lat) && decide (v.longitude > lon)

/-- One calendar day in milliseconds. -/
def dayLen : ℤ := 86400000

/-- Timestamp of `setHours(0,0,0,0)` applied to `new Date(t)`: the start of
the calendar day containing `t`.  The server's local timezone is modelled
as UTC, so day boundaries are the multiples of `dayLen`. -/
def dayStart (t : ℤ) : ℤ := t - t % dayLen

/-- The `latitude`/`longitude` request fields are strings at the HTTP
boundary: absent or empty (falsy), the literal `"web"` sentinel, or a
numeric string (modelled by the parsed value). -/
inductive CoordField where
  | missing
  | web
  | num (q : ℚ)
deriving DecidableEq

/-- JS truthiness of a coordinate string: only absent/empty is falsy. -/
def coordTruthy : CoordField → Bool
  | .missing => false
  | _ => true

/-- JS truthiness of an optional string. -/
def strTruthy : Option String → Bool
  | none => false
  | some s => !(s == "")

/-- `a || b` on an optional string (empty string is falsy). -/
def strOr : Option String → String → String
  | none, b => b
  | some s, b => if s = "" then b else s

/-- The fields of the user document the check-in route reads
(`src/server/models/Room.ts` lines 196-210): the subject's home hostel and
the stored face embedding (`none` = not enrolled, `some []` = empty). -/
structure User where
  id : ℕ
  hostelBlock : String
  faceEmbedding : Option (List ℚ)
deriving DecidableEq

/-- An attendance record (`src/server/models/Attendance.ts`), as written
by the check-in route's commit. -/
structure Attendance where
  userId : ℕ
  date : ℤ
  isPresent : Bool
  photoUrl : Option String
  latitude : CoordField
  longitude : CoordField
  reason : Option String
deriving DecidableEq

/-- The body of a `POST /` check-in request
(`src/server/models/Room.ts` line 183). -/
structure Request where
  userId : ℕ
  date : ℤ
  isPresent : Bool
  photoUrl : Option String
  latitude : CoordField
  longitude : CoordField
  reason : Option String
  selectedHostel : Option String
deriving DecidableEq

/-- Step 0 of the route (`src/server/models/Room.ts` lines 185-193):
if splitting on `'base64,'` yields more than two parts, rebuild the data
URL from the last part. -/
def sanitizePhotoUrl : Option String → Option String
  | none => none
  | some s =>
      let parts := s.splitOn "base64,"
      if parts.length > 2 then
        some ("data:image/jpeg;base64," ++ (parts.getLast?.getD ""))
      else some s

/-- `User.findById` over the modelled user collection. -/
def findUser (users : List User) (uid : ℕ) : Option User :=
  users.find? (fun u => u.id == uid)

/-- The duplicate check of the check-in route
(`src/server/models/Room.ts` lines 213-222): any attendance record of the
subject dated inside the (non-widened) calendar day of the request date. -/
def dupExists (L : List Attendance) (req : Request) : Bool :=
  L.any (fun r => r.userId == req.userId &&
    decide (dayStart req.date ≤ r.date) &&
    decide (r.date ≤ dayStart req.date + (dayLen - 1)))

/-- `GET /check/:userId/:date` (`src/server/models/Room.ts` lines 48-70):
existence check over the calendar-day window widened by one day on each
side; the route imposes no `isPresent` filter. -/
def hasMarkedToday (L : List Attendance) (uid : ℕ) (date : ℤ) : Bool :=
  L.any (fun r => r.userId == uid &&
    decide (dayStart date - dayLen ≤ r.date) &&
    decide (r.date ≤ dayStart date + (dayLen - 1) + dayLen))

/-- A hostel boundary entry of `HOSTEL_LOCATIONS`
(`src/server/config/hostels.ts`): polygon points plus optional
center/radius. -/
structure HostelBoundary where
  points : List GeoPoint
  center : Option GeoPoint
  radius : Option ℚ

section
open scoped Classical

/-- JS `Math.atan2`. -/
noncomputable def atan2 (y x : ℝ) : ℝ :=
  if 0 < x then Real.arctan (y / x)
  else if x < 0 then
    (if 0 ≤ y then Real.arctan (y / x) + Real.pi
     else Real.arctan (y / x) - Real.pi)
  else
    (if 0 < y then Real.pi / 2 else if y < 0 then -(Real.pi / 2) else 0)

/-- Haversine great-circle distance (`src/server/models/Room.ts`
lines 144-157), Earth radius 6371000 m. -/
noncomputable def getDistance (lat1 lon1 lat2 lon2 : ℝ) : ℝ :=
  let R : ℝ := 6371000
  let p1 := lat1 * Real.pi / 180
  let p2 := lat2 * Real.pi / 180
  let dp := (lat2 - lat1) * Real.pi / 180
  let dl := (lon2 - lon1) * Real.pi / 180
  let a := Real.sin (dp / 2) * Real.sin (dp / 2) +
    Real.cos p1 * Real.cos p2 * Real.sin (dl / 2) * Real.sin (dl / 2)
  let c := 2 * atan2 (Real.sqrt a) (Real.sqrt (1 - a))
  R * c

/-- The inside/outside decision of the geofence branch
(`src/server/models/Room.ts` lines 233-250): `if (hostelConfig.radius &&
hostelConfig.center)` (JS truthiness: a radius of 0 is falsy) use the
haversine distance against the radius, else ray-cast the polygon. -/
noncomputable def evalBoundary (cfg : HostelBoundary) (lat lon : ℚ) : Bool :=
  match cfg.radius, cfg.center with
  | some r, some c =>
      if r = 0 then isPointInPolygon lat lon cfg.points
      else if getDistance (lat : ℝ) (lon : ℝ) (c.latitude : ℝ)
          (c.longitude : ℝ) ≤ (r : ℝ) then true else false
  | _, _ => isPointInPolygon lat lon cfg.points

/-- The geofence gate (`src/server/models/Room.ts` lines 228-259): runs only
when a boundary is configured for the claimed hostel, both coordinates are
truthy, and the latitude is not the `"web"` sentinel; rejects when the
point evaluates outside.  A numeric latitude paired with a non-numeric
longitude makes every comparison NaN-false in JS, hence outside. -/
noncomputable def geofenceRejects (hostels : String → Option HostelBoundary)
    (u : User) (req : Request) : Bool :=
  match hostels (strOr req.selectedHostel u.hostelBlock) with
  | none => false
  | some cfg =>
      if coordTruthy req.latitude && coordTruthy req.longitude &&
          !(req.latitude == CoordField.web) then
        !(match req.latitude, req.longitude with
          | CoordField.num a, CoordField.num b => evalBoundary cfg a b
          | _, _ => false)
      else false

/-- Outcome of one check-in request, mirroring the route's responses:
404, the 400 rejections of each gate, and 201 with the saved record. -/
inductive Res where
  | userNotFound
  | duplicate
  | outsideGeofence (hostel : String)
  | faceNotRegistered
  | faceDetectError (msg : String)
  | faceMismatch (similarity : ℚ)
  | created (a : Attendance)
deriving DecidableEq

/-- Result of processing one request: the response, the ledger afterwards,
and how many times the embedding generator was invoked. -/
structure StepOut where
  res : Res
  ledger : List Attendance
  embedCalls : ℕ
deriving DecidableEq

/-- The record the commit saves (`src/server/models/Room.ts`
lines 304-313): the request fields with the sanitized photo URL. -/
def mkRecord (req : Request) : Attendance :=
  ⟨req.userId, req.date, req.isPresent, sanitizePhotoUrl req.photoUrl,
    req.latitude, req.longitude, req.reason⟩

/-- The gate pipeline of `POST /` (`src/server/models/Room.ts`
lines 180-314) up to but not including the save: user fetch, duplicate
check, geofence, face verification (enrollment presence, embedding
generation via the external `embed` collaborator, similarity against the
fixed threshold 50 via the external `calcSim` collaborator).  Returns the
response together with the number of `getFaceEmbedding` invocations. -/
noncomputable def gatesResult (hostels : String → Option HostelBoundary)
    (embed : String → Except String (List ℚ))
    (calcSim : List ℚ → List ℚ → ℚ)
    (users : List User) (L : List Attendance) (req : Request) : Res × ℕ :=
  match findUser users req.userId with
  | none => (.userNotFound, 0)
  | some u =>
      if dupExists L req then (.duplicate, 0)
      else if geofenceRejects hostels u req then
        (.outsideGeofence (strOr req.selectedHostel u.hostelBlock), 0)
      else if req.isPresent && strTruthy req.photoUrl then
        match u.faceEmbedding with
        | none => (.faceNotRegistered, 0)
        | some emb =>
            if emb.isEmpty then (.faceNotRegistered, 0)
            else
              match embed ((sanitizePhotoUrl req.photoUrl).getD "") with
              | .error msg => (.faceDetectError msg, 1)
              | .ok probe =>
                  if calcSim emb probe < 50 then
                    (.faceMismatch (calcSim emb probe), 1)
                  else (.created (mkRecord req), 1)
      else (.created (mkRecord req), 0)

/-- One full sequential `POST /` request: run the gates against the current
ledger, and append the new record exactly when the pipeline reaches the
save. -/
noncomputable def processOne (hostels : String → Option HostelBoundary)
    (embed : String → Except String (List ℚ))
    (calcSim : List ℚ → List ℚ → ℚ)
    (users : List User) (L : List Attendance) (req : Request) : StepOut :=
  let g := gatesResult hostels embed calcSim users L req
  ⟨g.1, match g.1 with | .created a => L ++ [a] | _ => L, g.2⟩

/-- Sequential processing of a list of check-in requests. -/
noncomputable def processAll (hostels : String → Option HostelBoundary)
    (embed : String → Except String (List ℚ))
    (calcSim : List ℚ → List ℚ → ℚ)
    (users : List User) (L : List Attendance) (reqs : List Request) :
    List Attendance :=
  reqs.foldl
    (fun acc r => (processOne hostels embed calcSim users acc r).ledger) L

/-- Two concurrent requests interleaved as
DuplicateCheck A, DuplicateCheck B, Commit A, Commit B: both gate runs read
the initial ledger (the route's `findOne` and `save` are separate awaited
operations), then each commit applies unconditionally — the schema has no
unique index on (userId, date), so `save` is a plain insert. -/
noncomputable def raceRun (hostels : String → Option HostelBoundary)
    (embed : String → Except String (List ℚ))
    (calcSim : List ℚ → List ℚ → ℚ)
    (users : List User) (L0 : List Attendance) (reqA reqB : Request) :
    Res × Res × List Attendance :=
  let ra := gatesResult hostels embed calcSim users L0 reqA
  let rb := gatesResult hostels embed calcSim users L0 reqB
  let L1 := match ra.1 with | .created a => L0 ++ [a] | _ => L0
  let L2 := match rb.1 with | .created a => L1 ++ [a] | _ => L1
  (ra.1, rb.1, L2)

end

/-- Two records are for the same subject on the same calendar day. -/
def sameKey (a b : Attendance) : Prop :=
  a.userId = b.userId ∧ dayStart a.date = dayStart b.date

/-- The spec's central invariant: at most one isPresent=true record per
(subject, calendar day). -/
def atMostOnePresentPerKey (L : List Attendance) : Prop :=
  List.Pairwise
    (fun a b => a.isPresent = true → b.isPresent = true → ¬ sameKey a b) L

/-- The stronger invariant the sequential pipeline maintains: at most one
record (present or not) per (subject, calendar day). -/
def uniqueKeys (L : List Attendance) : Prop :=
  List.Pairwise (fun a b => ¬ sameKey a b) L

/-- Fixture: no hostel has a configured boundary. -/
def noHostels : String → Option HostelBoundary := fun _ => none

/-- Fixture: the embedding generator succeeds with a constant vector. -/
def embedOk : String → Except String (List ℚ) := fun _ => .ok [1]

/-- Fixture: similarity collaborator pinned at the threshold 50. -/
def calcFifty : List ℚ → List ℚ → ℚ := fun _ _ => 50

/-- Fixture: similarity collaborator pinned just below the threshold. -/
def calcLow : List ℚ → List ℚ → ℚ := fun _ _ => 4999 / 100

/-- Fixture subject: enrolled, home hostel without a configured boundary. -/
def userA : User := ⟨1, "NoSuchHostel", some [1]⟩

/-- Fixture request: present, no photo. -/
def reqNoPhoto : Request := ⟨1, 0, true, none, .missing, .missing, none, none⟩

/-- Fixture request: present, with photo. -/
def reqPhoto : Request := ⟨1, 0, true, some "p", .missing, .missing, none, none⟩

/-- The record `reqNoPhoto` commits. -/
def recA : Attendance := mkRecord reqNoPhoto

/-- Fixture record: an isPresent=false record for subject 1 at time 0. -/
def recFalse : Attendance := ⟨1, 0, false, none, .missing, .missing, none⟩

/-- Fixture subject with no stored face embedding. -/
def userNoFace : User := ⟨1, "NoSuchHostel", none⟩

/-- Fixture boundary carrying both polygon points and center/radius. -/
def cfgBoth : HostelBoundary :=
  ⟨[⟨0, 0⟩, ⟨0, 1⟩, ⟨1, 0⟩], some ⟨0, 0⟩, some 1000⟩

/- ------------------------------------------------------------------ -/
/-  Theorems                                                           -/
/- ------------------------------------------------------------------ -/

theorem loopAux_parity (f : GeoPoint → GeoPoint → Bool) :
    ∀ (l : List GeoPoint) (s : GeoPoint) (b : Bool),
      loopAux f l s b =
        xor b (Nat.bodd ((l.zip (s :: l)).countP (fun e => f e.1 e.2)))
  | [], s, b => by simp [loopAux]
  | c :: rest, s, b => by
      have ih := loopAux_parity f rest c
      simp only [loopAux, List.zip_cons_cons, List.countP_cons, Nat.bodd_add]
      rcases hcs : f c s with _ | _ <;>
        rcases b with _ | _ <;>
          simp [ih, hcs, Bool.xor_comm, Bool.xor_assoc]

theorem isPointInPolygon_parity (lat lon : ℚ) (polygon : List GeoPoint) :
    isPointInPolygon lat lon polygon =
      Nat.bodd ((edgeList polygon).countP
        (fun e => serverCross lat lon e.1 e.2)) := by
  unfold isPointInPolygon edgeList
  rcases h : polygon.getLast? with _ | s
  · simp
  · simp [loopAux_parity]

theorem client_isPointInPolygon_parity (lat lon : ℚ) (polygon : List GeoPoint) :
    Client.isPointInPolygon lat lon polygon =
      Nat.bodd ((edgeList polygon).countP
        (fun e => clientCross lat lon e.1 e.2)) := by
  unfold Client.isPointInPolygon edgeList
  rcases h : polygon.getLast? with _ | s
  · simp
  · simp [loopAux_parity]

theorem zip_cons_dropLast {α : Type} :
    ∀ (l : List α) (s : α), l.zip (s :: l) = l.zip (s :: l.dropLast)
  | [], _ => rfl
  | [a], s => rfl
  | a :: b :: t, s => by
      have ih := zip_cons_dropLast (b :: t) a
      simp only [List.zip_cons_cons, List.dropLast_cons₂]
      exact congrArg _ ih

theorem edgeList_rotate_one (l : List GeoPoint) :
    (edgeList (l.rotate 1)).Perm (edgeList l) := by
  rcases l with _ | ⟨a, t⟩
  · simp [edgeList]
  by_cases htne : t = []
  · subst htne
    have h1 : ([a] : List GeoPoint).rotate 1 = [a] := by
      simpa using List.rotate_cons_succ ([] : List GeoPoint) a 0
    rw [h1]
  set g := t.getLast htne with hg
  have hrot : (a :: t).rotate 1 = t ++ [a] := by
    simpa using List.rotate_cons_succ t a 0
  have hlast2 : (t ++ [a]).getLast? = some a := List.getLast?_concat t
  have hlast1 : (a :: t).getLast? = some g := by
    rw [List.getLast?_eq_getLast (a :: t) (by simp)]
    exact congrArg some (List.getLast_cons htne)
  have hsplit : (a : GeoPoint) :: t = (a :: t.dropLast) ++ [g] := by
    simpa using congrArg (a :: ·) (List.dropLast_append_getLast htne).symm
  have hlen : t.length = (a :: t.dropLast).length := by
    rcases t with _ | ⟨x, xs⟩
    · exact absurd rfl htne
    · simp
  have hL : edgeList ((a :: t).rotate 1) = t.zip (a :: t) ++ [(a, g)] := by
    rw [hrot]
    unfold edgeList
    rw [hlast2]
    show (t ++ [a]).zip (a :: (t ++ [a])) = t.zip (a :: t) ++ [(a, g)]
    have h2 : (a : GeoPoint) :: (t ++ [a]) = (a :: t.dropLast) ++ ([g] ++ [a]) := by
      rw [← List.append_assoc, ← hsplit]
      rfl
    rw [h2, List.zip_append hlen, ← zip_cons_dropLast]
    rfl
  have hR : edgeList (a :: t) = (a, g) :: t.zip (a :: t) := by
    unfold edgeList
    rw [hlast1]
    rfl
  rw [hL, hR]
  exact List.perm_append_singleton _ _

theorem edgeList_rotate_perm (l : List GeoPoint) (k : ℕ) :
    (edgeList (l.rotate k)).Perm (edgeList l) := by
  induction k with
  | zero => rw [List.rotate_zero]
  | succ n ih =>
      have h : l.rotate (n + 1) = (l.rotate n).rotate 1 :=
        (List.rotate_rotate l n 1).symm
      rw [h]
      exact (edgeList_rotate_one (l.rotate n)).trans ih

theorem ratio_unit {u d : ℚ} (h : (d ≤ u ∧ u < 0) ∨ (0 ≤ u ∧ u < d)) :
    0 ≤ u / d ∧ u / d ≤ 1 := by
  rcases h with ⟨h1, h2⟩ | ⟨h1, h2⟩
  · have hd : d < 0 := lt_of_le_of_lt h1 h2
    constructor
    · have he : u / d = (-u) / (-d) := by rw [neg_div_neg_eq]
      rw [he]
      exact div_nonneg (by linarith) (by linarith)
    · rw [div_le_iff_of_neg hd]
      linarith
  · have hd : 0 < d := lt_of_le_of_lt h1 h2
    constructor
    · exact div_nonneg h1 hd.le
    · rw [div_le_iff₀ hd]
      linarith

theorem convex_lt {p x y t : ℚ} (hx : p < x) (hy : p < y) (h0 : 0 ≤ t)
    (h1 : t ≤ 1) : p < x + t * (y - x) := by
  rcases eq_or_lt_of_le h0 with h | h
  · rw [← h]
    simpa using hx
  · nlinarith [mul_pos h (sub_pos.2 hy),
      mul_nonneg (sub_nonneg.2 h1) (sub_pos.2 hx).le]

theorem convex_le {p x y t : ℚ} (hx : x ≤ p) (hy : y ≤ p) (h0 : 0 ≤ t)
    (h1 : t ≤ 1) : x + t * (y - x) ≤ p := by
  nlinarith [mul_nonneg h0 (sub_nonneg.2 hy),
    mul_nonneg (sub_nonneg.2 h1) (sub_nonneg.2 hx)]

theorem lt_div_add_iff_neg {x a e d : ℚ} (hd : d < 0) :
    (x < e / d + a) ↔ e < (x - a) * d := by
  rw [← sub_lt_iff_lt_add]
  exact lt_div_iff_of_neg hd

theorem lt_div_add_iff_pos {x a e d : ℚ} (hd : 0 < d) :
    (x < e / d + a) ↔ (x - a) * d < e := by
  rw [← sub_lt_iff_lt_add]
  exact lt_div_iff₀ hd

/-- Claim C9.  Rotating the vertex list of a polygon by any cyclic offset
does not change the server point-in-polygon result for any query point.
The source's own loop visits exactly the cyclic edge set, so the result
holds for every query point, in particular (as the claim states it) for
points not on an edge or vertex. -/
theorem polygon_rotation_invariant (lat lon : ℚ) (polygon : List GeoPoint)
    (k : ℕ) :
    isPointInPolygon lat lon (polygon.rotate k) =
      isPointInPolygon lat lon polygon := by
  rw [isPointInPolygon_parity, isPointInPolygon_parity,
    (edgeList_rotate_perm polygon k).countP_eq]

theorem edge_cross_xor (lat lon : ℚ) (a b : GeoPoint)
    (h : ¬ onSegment lat lon a b) :
    (clientCross lat lon a b != serverCross lat lon a b) =
      (inQuad lat lon a != inQuad lat lon b) := by
  obtain ⟨A, B⟩ := a
  obtain ⟨C, D⟩ := b
  simp only [clientCross, serverCross, inQuad]
  by_cases hda : B > lon
  · by_cases hdb : D > lon
    · by_cases hea : A > lat
      · by_cases heb : C > lat
        · simp [decide_eq_true hda, decide_eq_true hdb, decide_eq_true hea,
            decide_eq_true heb]
        · have hC : C ≤ lat := not_lt.mp heb
          have ht := ratio_unit (u := lat - A) (d := C - A)
            (Or.inl ⟨by linarith, by linarith⟩)
          have hcl : lon < (D - B) * (lat - A) / (C - A) + B := by
            rw [show (D - B) * (lat - A) / (C - A) + B
                = B + (lat - A) / (C - A) * (D - B) from by ring]
            exact convex_lt (x := B) (y := D) hda hdb ht.1 ht.2
          simp [decide_eq_true hda, decide_eq_true hdb, decide_eq_true hea,
            decide_eq_false heb, decide_eq_true hcl]
      · by_cases heb : C > lat
        · have hA : A ≤ lat := not_lt.mp hea
          have ht := ratio_unit (u := lat - A) (d := C - A)
            (Or.inr ⟨by linarith, by linarith⟩)
          have hcl : lon < (D - B) * (lat - A) / (C - A) + B := by
            rw [show (D - B) * (lat - A) / (C - A) + B
                = B + (lat - A) / (C - A) * (D - B) from by ring]
            exact convex_lt (x := B) (y := D) hda hdb ht.1 ht.2
          simp [decide_eq_true hda, decide_eq_true hdb, decide_eq_false hea,
            decide_eq_true heb, decide_eq_true hcl]
        · simp [decide_eq_true hda, decide_eq_true hdb, decide_eq_false hea,
            decide_eq_false heb]
    · by_cases hea : A > lat
      · by_cases heb : C > lat
        · have hD : D ≤ lon := not_lt.mp hdb
          have ht := ratio_unit (u := lon - B) (d := D - B)
            (Or.inl ⟨by linarith, by linarith⟩)
          have hsv : lat < (C - A) * (lon - B) / (D - B) + A := by
            rw [show (C - A) * (lon - B) / (D - B) + A
                = A + (lon - B) / (D - B) * (C - A) from by ring]
            exact convex_lt (x := A) (y := C) hea heb ht.1 ht.2
          simp [decide_eq_true hda, decide_eq_false hdb, decide_eq_true hea,
            decide_eq_true heb, decide_eq_true hsv]
        · -- both straddles: a strictly NE of the query point, b weakly SW
          have hD : D ≤ lon := not_lt.mp hdb
          have hC : C ≤ lat := not_lt.mp heb
          have hd1 : D - B < 0 := by linarith
          have hd2 : C - A < 0 := by linarith
          rcases lt_trichotomy ((lat - A) * (D - B)) ((lon - B) * (C - A))
            with hlt | heq | hgt
          · have hsv : ¬(lat < (C - A) * (lon - B) / (D - B) + A) := by
              rw [lt_div_add_iff_neg hd1, not_lt]
              nlinarith [hlt]
            have hcl : lon < (D - B) * (lat - A) / (C - A) + B := by
              rw [lt_div_add_iff_neg hd2]
              nlinarith [hlt]
            simp [decide_eq_true hda, decide_eq_false hdb, decide_eq_true hea,
              decide_eq_false heb, decide_eq_false hsv, decide_eq_true hcl]
          · exact absurd ⟨heq, le_trans (min_le_right _ _) hC,
              le_trans hea.le (le_max_left _ _),
              le_trans (min_le_right _ _) hD,
              le_trans hda.le (le_max_left _ _)⟩ h
          · have hsv : lat < (C - A) * (lon - B) / (D - B) + A := by
              rw [lt_div_add_iff_neg hd1]
              nlinarith [hgt]
            have hcl : ¬(lon < (D - B) * (lat - A) / (C - A) + B) := by
              rw [lt_div_add_iff_neg hd2, not_lt]
              nlinarith [hgt]
            simp [decide_eq_true hda, decide_eq_false hdb, decide_eq_true hea,
              decide_eq_false heb, decide_eq_true hsv, decide_eq_false hcl]
      · by_cases heb : C > lat
        · -- both straddles, same side of the line: tests agree
          have hD : D ≤ lon := not_lt.mp hdb
          have hA : A ≤ lat := not_lt.mp hea
          have hd1 : D - B < 0 := by linarith
          have hd2 : 0 < C - A := by linarith
          have hx : decide (lon < (D - B) * (lat - A) / (C - A) + B)
              = decide (lat < (C - A) * (lon - B) / (D - B) + A) := by
            rw [decide_eq_decide, lt_div_add_iff_pos hd2, lt_div_add_iff_neg hd1]
            constructor <;> intro h' <;> nlinarith [h']
          simp [decide_eq_true hda, decide_eq_false hdb, decide_eq_false hea,
            decide_eq_true heb, hx]
        · have hD : D ≤ lon := not_lt.mp hdb
          have hA : A ≤ lat := not_lt.mp hea
          have hC : C ≤ lat := not_lt.mp heb
          have ht := ratio_unit (u := lon - B) (d := D - B)
            (Or.inl ⟨by linarith, by linarith⟩)
          have hsv : ¬(lat < (C - A) * (lon - B) / (D - B) + A) := by
            rw [not_lt, show (C - A) * (lon - B) / (D - B) + A
                = A + (lon - B) / (D - B) * (C - A) from by ring]
            exact convex_le (x := A) (y := C) hA hC ht.1 ht.2
          simp [decide_eq_true hda, decide_eq_false hdb, decide_eq_false hea,
            decide_eq_false heb, decide_eq_false hsv]
  · by_cases hdb : D > lon
    · by_cases hea : A > lat
      · by_cases heb : C > lat
        · have hB : B ≤ lon := not_lt.mp hda
          have ht := ratio_unit (u := lon - B) (d := D - B)
            (Or.inr ⟨by linarith, by linarith⟩)
          have hsv : lat < (C - A) * (lon - B) / (D - B) + A := by
            rw [show (C - A) * (lon - B) / (D - B) + A
                = A + (lon - B) / (D - B) * (C - A) from by ring]
            exact convex_lt (x := A) (y := C) hea heb ht.1 ht.2
          simp [decide_eq_false hda, decide_eq_true hdb, decide_eq_true hea,
            decide_eq_true heb, decide_eq_true hsv]
        · -- both straddles, same side: tests agree
          have hB : B ≤ lon := not_lt.mp hda
          have hC : C ≤ lat := not_lt.mp heb
          have hd1 : 0 < D - B := by linarith
          have hd2 : C - A < 0 := by linarith
          have hx : decide (lon < (D - B) * (lat - A) / (C - A) + B)
              = decide (lat < (C - A) * (lon - B) / (D - B) + A) := by
            rw [decide_eq_decide, lt_div_add_iff_neg hd2, lt_div_add_iff_pos hd1]
            constructor <;> intro h' <;> nlinarith [h']
          simp [decide_eq_false hda, decide_eq_true hdb, decide_eq_true hea,
            decide_eq_false heb, hx]
      · by_cases heb : C > lat
        · -- both straddles: b strictly NE of the query point, a weakly SW
          have hB : B ≤ lon := not_lt.mp hda
          have hA : A ≤ lat := not_lt.mp hea
          have hd1 : 0 < D - B := by linarith
          have hd2 : 0 < C - A := by linarith
          rcases lt_trichotomy ((lat - A) * (D - B)) ((lon - B) * (C - A))
            with hlt | heq | hgt
          · have hsv : lat < (C - A) * (lon - B) / (D - B) + A := by
              rw [lt_div_add_iff_pos hd1]
              nlinarith [hlt]
            have hcl : ¬(lon < (D - B) * (lat - A) / (C - A) + B) := by
              rw [lt_div_add_iff_pos hd2, not_lt]
              nlinarith [hlt]
            simp [decide_eq_false hda, decide_eq_true hdb, decide_eq_false hea,
              decide_eq_true heb, decide_eq_true hsv, decide_eq_false hcl]
          · exact absurd ⟨heq, le_trans (min_le_left _ _) hA,
              le_trans heb.le (le_max_right _ _),
              le_trans (min_le_left _ _) hB,
              le_trans hdb.le (le_max_right _ _)⟩ h
          · have hsv : ¬(lat < (C - A) * (lon - B) / (D - B) + A) := by
              rw [lt_div_add_iff_pos hd1, not_lt]
              nlinarith [hgt]
            have hcl : lon < (D - B) * (lat - A) / (C - A) + B := by
              rw [lt_div_add_iff_pos hd2]
              nlinarith [hgt]
            simp [decide_eq_false hda, decide_eq_true hdb, decide_eq_false hea,
              decide_eq_true heb, decide_eq_false hsv, decide_eq_true hcl]
        · have hB : B ≤ lon := not_lt.mp hda
          have hA : A ≤ lat := not_lt.mp hea
          have hC : C ≤ lat := not_lt.mp heb
          have ht := ratio_unit (u := lon - B) (d := D - B)
            (Or.inr ⟨by linarith, by linarith⟩)
          have hsv : ¬(lat < (C - A) * (lon - B) / (D - B) + A) := by
            rw [not_lt, show (C - A) * (lon - B) / (D - B) + A
                = A + (lon - B) / (D - B) * (C - A) from by ring]
            exact convex_le (x := A) (y := C) hA hC ht.1 ht.2
          simp [decide_eq_false hda, decide_eq_true hdb, decide_eq_false hea,
            decide_eq_false heb, decide_eq_false hsv]
    · by_cases hea : A > lat
      · by_cases heb : C > lat
        · simp [decide_eq_false hda, decide_eq_false hdb, decide_eq_true hea,
            decide_eq_true heb]
        · have hB : B ≤ lon := not_lt.mp hda
          have hD : D ≤ lon := not_lt.mp hdb
          have hC : C ≤ lat := not_lt.mp heb
          have ht := ratio_unit (u := lat - A) (d := C - A)
            (Or.inl ⟨by linarith, by linarith⟩)
          have hcl : ¬(lon < (D - B) * (lat - A) / (C - A) + B) := by
            rw [not_lt, show (D - B) * (lat - A) / (C - A) + B
                = B + (lat - A) / (C - A) * (D - B) from by ring]
            exact convex_le (x := B) (y := D) hB hD ht.1 ht.2
          simp [decide_eq_false hda, decide_eq_false hdb, decide_eq_true hea,
            decide_eq_false heb, decide_eq_false hcl]
      · by_cases heb : C > lat
        · have hB : B ≤ lon := not_lt.mp hda
          have hD : D ≤ lon := not_lt.mp hdb
          have hA : A ≤ lat := not_lt.mp hea
          have ht := ratio_unit (u := lat - A) (d := C - A)
            (Or.inr ⟨by linarith, by linarith⟩)
          have hcl : ¬(lon < (D - B) * (lat - A) / (C - A) + B) := by
            rw [not_lt, show (D - B) * (lat - A) / (C - A) + B
                = B + (lat - A) / (C - A) * (D - B) from by ring]
            exact convex_le (x := B) (y := D) hB hD ht.1 ht.2
          simp [decide_eq_false hda, decide_eq_false hdb, decide_eq_false hea,
            decide_eq_true heb, decide_eq_false hcl]
        · simp [decide_eq_false hda, decide_eq_false hdb, decide_eq_false hea,
            decide_eq_false heb]

theorem xor_eq_false_imp {x y : Bool} (h : xor x y = false) : x = y := by
  cases x <;> cases y <;> simp_all

theorem bodd_countP_xor {α : Type} (p q : α → Bool) (l : List α) :
    xor (Nat.bodd (l.countP p)) (Nat.bodd (l.countP q)) =
      Nat.bodd (l.countP (fun x => p x != q x)) := by
  induction l with
  | nil => simp
  | cons a t ih =>
      simp only [List.countP_cons, Nat.bodd_add]
      rw [← ih]
      rcases hp : p a <;> rcases hq : q a <;>
        cases hX : Nat.bodd (List.countP p t) <;>
          cases hY : Nat.bodd (List.countP q t) <;>
            simp [hp, hq]

theorem countP_bne_chain (q : GeoPoint → Bool) :
    ∀ (l : List GeoPoint) (s g : GeoPoint), l.getLast? = some g →
      Nat.bodd ((l.zip (s :: l)).countP (fun e => q e.1 != q e.2)) =
        (q g != q s)
  | [], _, g, hg => by simp at hg
  | [a], s, g, hg => by
      have ha : a = g := by simpa using hg
      subst ha
      show Nat.bodd (List.countP (fun e => q e.1 != q e.2) [(a, s)]) =
        (q a != q s)
      rw [List.countP_cons]
      cases hy : q a <;> cases hz : q s <;> simp [hy, hz]
  | a :: b :: t, s, g, hg => by
      have hg' : (b :: t).getLast? = some g := by
        rwa [List.getLast?_cons_cons] at hg
      have ih := countP_bne_chain q (b :: t) a g hg'
      show Nat.bodd (List.countP (fun e => q e.1 != q e.2)
        ((a, s) :: (b :: t).zip (a :: b :: t))) = (q g != q s)
      rw [List.countP_cons, Nat.bodd_add, ih]
      cases hx : q g <;> cases hy : q a <;> cases hz : q s <;>
        simp [hx, hy, hz]

/-- Claim C10.  For every polygon and every query point not lying on any
(closed) edge segment of the polygon — which excludes vertices as well —
the client ray cast (longitude as X axis, latitude as Y axis,
`src/unnamed/part_003`) and the server ray cast (axes swapped,
`src/server/models/Room.ts`) return the same inside result.  Proof idea:
per edge, the client crossing XOR the server crossing equals the change of
the "strictly north-east of the query point" indicator across the edge,
which telescopes to `false` around the closed vertex cycle. -/
theorem client_server_polygon_agree (lat lon : ℚ) (polygon : List GeoPoint)
    (h : ∀ e ∈ edgeList polygon, ¬ onSegment lat lon e.1 e.2) :
    Client.isPointInPolygon lat lon polygon =
      isPointInPolygon lat lon polygon := by
  rw [client_isPointInPolygon_parity, isPointInPolygon_parity]
  have hcongr : (edgeList polygon).countP
      (fun e => clientCross lat lon e.1 e.2 != serverCross lat lon e.1 e.2) =
      (edgeList polygon).countP
        (fun e => inQuad lat lon e.1 != inQuad lat lon e.2) :=
    List.countP_congr (fun e he => by
      rw [edge_cross_xor lat lon e.1 e.2 (h e he)])
  have hxor := bodd_countP_xor (fun e => clientCross lat lon e.1 e.2)
    (fun e => serverCross lat lon e.1 e.2) (edgeList polygon)
  have htel : Nat.bodd ((edgeList polygon).countP
      (fun e => inQuad lat lon e.1 != inQuad lat lon e.2)) = false := by
    rcases hpol : polygon.getLast? with _ | g
    · have hnil : polygon = [] := List.getLast?_eq_none_iff.mp hpol
      subst hnil
      simp [edgeList]
    · have hE : edgeList polygon = polygon.zip (g :: polygon) := by
        unfold edgeList
        rw [hpol]
      rw [hE, countP_bne_chain (inQuad lat lon) polygon g g hpol]
      simp
  rw [hcongr, htel] at hxor
  exact xor_eq_false_imp hxor

/-- Witness for C10: a concrete square and an interior query point not on
any edge; both ray casts answer `true`. -/
theorem client_server_polygon_agree_witness :
    Client.isPointInPolygon 1 1 [⟨0, 0⟩, ⟨0, 2⟩, ⟨2, 2⟩, ⟨2, 0⟩] =
      isPointInPolygon 1 1 [⟨0, 0⟩, ⟨0, 2⟩, ⟨2, 2⟩, ⟨2, 0⟩] :=
  client_server_polygon_agree 1 1 [⟨0, 0⟩, ⟨0, 2⟩, ⟨2, 2⟩, ⟨2, 0⟩] (by
    intro e he
    simp [edgeList] at he
    rcases he with rfl | rfl | rfl | rfl <;> simp [onSegment])

theorem mem_dayWindow_iff (d t : ℤ) :
    (dayStart d ≤ t ∧ t ≤ dayStart d + (dayLen - 1)) ↔
      dayStart t = dayStart d := by
  unfold dayStart dayLen
  omega

theorem dupExists_iff (L : List Attendance) (req : Request) :
    dupExists L req = true ↔
      ∃ r ∈ L, r.userId = req.userId ∧ dayStart r.date = dayStart req.date := by
  unfold dupExists
  rw [List.any_eq_true]
  constructor
  · rintro ⟨r, hr, hp⟩
    simp only [Bool.and_eq_true, beq_iff_eq, decide_eq_true_eq] at hp
    exact ⟨r, hr, hp.1.1, (mem_dayWindow_iff req.date r.date).mp ⟨hp.1.2, hp.2⟩⟩
  · rintro ⟨r, hr, hu, hd⟩
    refine ⟨r, hr, ?_⟩
    have hw := (mem_dayWindow_iff req.date r.date).mpr hd
    simp only [Bool.and_eq_true, beq_iff_eq, decide_eq_true_eq]
    exact ⟨⟨hu, hw.1⟩, hw.2⟩

theorem gatesResult_noUser (ho : String → Option HostelBoundary)
    (em : String → Except String (List ℚ)) (cs : List ℚ → List ℚ → ℚ)
    (users : List User) (L : List Attendance) (req : Request)
    (hu : findUser users req.userId = none) :
    gatesResult ho em cs users L req = (.userNotFound, 0) := by
  unfold gatesResult
  rw [hu]

theorem gatesResult_user (ho : String → Option HostelBoundary)
    (em : String → Except String (List ℚ)) (cs : List ℚ → List ℚ → ℚ)
    (users : List User) (L : List Attendance) (req : Request) (u : User)
    (hu : findUser users req.userId = some u) :
    gatesResult ho em cs users L req =
      (if dupExists L req then (.duplicate, 0)
       else if geofenceRejects ho u req then
         (.outsideGeofence (strOr req.selectedHostel u.hostelBlock), 0)
       else if req.isPresent && strTruthy req.photoUrl then
         match u.faceEmbedding with
         | none => (.faceNotRegistered, 0)
         | some emb =>
             if emb.isEmpty then (.faceNotRegistered, 0)
             else
               match em ((sanitizePhotoUrl req.photoUrl).getD "") with
               | .error msg => (.faceDetectError msg, 1)
               | .ok probe =>
                   if cs emb probe < 50 then
                     (.faceMismatch (cs emb probe), 1)
                   else (.created (mkRecord req), 1)
       else (.created (mkRecord req), 0)) := by
  unfold gatesResult
  rw [hu]

theorem processOne_eq_reject (ho : String → Option HostelBoundary)
    (em : String → Except String (List ℚ)) (cs : List ℚ → List ℚ → ℚ)
    (users : List User) (L : List Attendance) (req : Request)
    (res : Res) (k : ℕ)
    (h : gatesResult ho em cs users L req = (res, k))
    (hnc : ∀ a, res ≠ Res.created a) :
    processOne ho em cs users L req = ⟨res, L, k⟩ := by
  simp only [processOne, h]

theorem processOne_eq_created (ho : String → Option HostelBoundary)
    (em : String → Except String (List ℚ)) (cs : List ℚ → List ℚ → ℚ)
    (users : List User) (L : List Attendance) (req : Request)
    (a : Attendance) (k : ℕ)
    (h : gatesResult ho em cs users L req = (Res.created a, k)) :
    processOne ho em cs users L req = ⟨Res.created a, L ++ [a], k⟩ := by
  simp only [processOne, h]

theorem gatesResult_fst_created (ho : String → Option HostelBoundary)
    (em : String → Except String (List ℚ)) (cs : List ℚ → List ℚ → ℚ)
    (users : List User) (L : List Attendance) (req : Request) (a : Attendance)
    (h : (gatesResult ho em cs users L req).1 = Res.created a) :
    a = mkRecord req ∧ dupExists L req = false := by
  rcases hfu : findUser users req.userId with _ | u
  · rw [gatesResult_noUser ho em cs users L req hfu] at h
    exact absurd h (by simp)
  · rw [gatesResult_user ho em cs users L req u hfu] at h
    by_cases hdup : dupExists L req
    · rw [if_pos hdup] at h
      exact absurd h (by simp)
    · rw [if_neg hdup] at h
      refine ⟨?_, by simpa using hdup⟩
      by_cases hgeo : geofenceRejects ho u req = true
      · rw [if_pos hgeo] at h
        exact absurd h (by simp)
      · rw [if_neg hgeo] at h
        by_cases hface : (req.isPresent && strTruthy req.photoUrl) = true
        · rw [if_pos hface] at h
          rcases hemb : u.faceEmbedding with _ | emb
          · simp only [hemb] at h
            exact absurd h (by simp)
          · simp only [hemb] at h
            by_cases hempty : emb.isEmpty = true
            · rw [if_pos hempty] at h
              exact absurd h (by simp)
            · rw [if_neg hempty] at h
              rcases hpr : em ((sanitizePhotoUrl req.photoUrl).getD "")
                with msg | probe
              · simp only [hpr] at h
                exact absurd h (by simp)
              · simp only [hpr] at h
                by_cases hsim : cs emb probe < 50
                · rw [if_pos hsim] at h
                  exact absurd h (by simp)
                · rw [if_neg hsim] at h
                  simpa using h.symm
        · rw [if_neg hface] at h
          simpa using h.symm

theorem processOne_cases (ho : String → Option HostelBoundary)
    (em : String → Except String (List ℚ)) (cs : List ℚ → List ℚ → ℚ)
    (users : List User) (L : List Attendance) (req : Request) :
    ((∀ a, (processOne ho em cs users L req).res ≠ Res.created a) ∧
      (processOne ho em cs users L req).ledger = L) ∨
    ((processOne ho em cs users L req).res = Res.created (mkRecord req) ∧
      (processOne ho em cs users L req).ledger = L ++ [mkRecord req] ∧
      dupExists L req = false) := by
  rcases hg : gatesResult ho em cs users L req with ⟨res, k⟩
  by_cases hc : ∃ a, res = Res.created a
  · obtain ⟨a, rfl⟩ := hc
    obtain ⟨ha, hdup⟩ := gatesResult_fst_created ho em cs users L req a
      (by rw [hg])
    subst ha
    right
    rw [processOne_eq_created ho em cs users L req _ k hg]
    exact ⟨rfl, rfl, hdup⟩
  · push_neg at hc
    left
    rw [processOne_eq_reject ho em cs users L req res k hg hc]
    exact ⟨fun a => hc a, rfl⟩

theorem processAll_cons (ho : String → Option HostelBoundary)
    (em : String → Except String (List ℚ)) (cs : List ℚ → List ℚ → ℚ)
    (users : List User) (L : List Attendance) (q : Request)
    (qs : List Request) :
    processAll ho em cs users L (q :: qs) =
      processAll ho em cs users (processOne ho em cs users L q).ledger qs :=
  rfl

theorem processAll_uniqueKeys (ho : String → Option HostelBoundary)
    (em : String → Except String (List ℚ)) (cs : List ℚ → List ℚ → ℚ)
    (users : List User) :
    ∀ (reqs : List Request) (L : List Attendance),
      uniqueKeys L → uniqueKeys (processAll ho em cs users L reqs)
  | [], L, hL => hL
  | q :: qs, L, hL => by
      rw [processAll_cons]
      apply processAll_uniqueKeys ho em cs users qs
      rcases processOne_cases ho em cs users L q with ⟨_, hld⟩ | ⟨_, hld, hdup⟩
      · rwa [hld]
      · rw [hld]
        unfold uniqueKeys at hL ⊢
        rw [List.pairwise_append]
        refine ⟨hL, by simp, ?_⟩
        intro x hx y hy
        have hy' : y = mkRecord q := by simpa using hy
        subst hy'
        intro hkey
        have : dupExists L q = true := by
          refine (dupExists_iff L q).mpr ⟨x, hx, ?_, ?_⟩
          · exact hkey.1
          · exact hkey.2
        rw [this] at hdup
        cases hdup

/-- Claim C1.  Sequential check-ins keep the ledger at no more than one
isPresent=true record per (subject, calendar day): processing any request
list from an empty ledger maintains the invariant; committed records are
never removed by later requests; and whenever some record for the
subject's calendar day is already present (as after a successful commit)
and the subject resolves, a further request for that (subject, date) is
rejected with the duplicate error, leaving the ledger unchanged and
calling no embedding generation. -/
theorem duplicate_uniqueness (ho : String → Option HostelBoundary)
    (em : String → Except String (List ℚ)) (cs : List ℚ → List ℚ → ℚ)
    (users : List User) :
    (∀ reqs : List Request,
        atMostOnePresentPerKey (processAll ho em cs users [] reqs)) ∧
    (∀ (L : List Attendance) (reqs : List Request) (r : Attendance),
        r ∈ L → r ∈ processAll ho em cs users L reqs) ∧
    (∀ (L : List Attendance) (req : Request),
        (∃ r ∈ L, r.userId = req.userId ∧
          dayStart r.date = dayStart req.date) →
        (∃ u, findUser users req.userId = some u) →
        processOne ho em cs users L req = ⟨Res.duplicate, L, 0⟩) := by
  refine ⟨?_, ?_, ?_⟩
  · intro reqs
    have h := processAll_uniqueKeys ho em cs users reqs [] List.Pairwise.nil
    unfold uniqueKeys at h
    unfold atMostOnePresentPerKey
    exact h.imp (fun hk => fun _ _ => hk)
  · intro L reqs
    induction reqs generalizing L with
    | nil => intro r hr; exact hr
    | cons q qs ih =>
        intro r hr
        rw [processAll_cons]
        apply ih
        rcases processOne_cases ho em cs users L q with ⟨_, hld⟩ | ⟨_, hld, _⟩
        · rwa [hld]
        · rw [hld]
          exact List.mem_append_left _ hr
  · rintro L req hex ⟨u, hu⟩
    have hdup : dupExists L req = true := (dupExists_iff L req).mpr hex
    have hg : gatesResult ho em cs users L req = (Res.duplicate, 0) := by
      rw [gatesResult_user ho em cs users L req u hu, if_pos hdup]
    exact processOne_eq_reject ho em cs users L req Res.duplicate 0 hg
      (by simp)

/-- Witness for C1: with a committed record for subject 1 at date 0 in the
ledger, a repeated request for (1, 0) is rejected as a duplicate and the
ledger is unchanged. -/
theorem duplicate_uniqueness_witness :
    processOne noHostels embedOk calcFifty [userA] [recA] reqNoPhoto =
      ⟨Res.duplicate, [recA], 0⟩ :=
  (duplicate_uniqueness noHostels embedOk calcFifty [userA]).2.2 [recA]
    reqNoPhoto ⟨recA, by simp, rfl, rfl⟩ ⟨userA, rfl⟩

/-- Claim C7.  Every processed check-in either rejects — leaving the ledger
exactly as it was — or returns 201 with the single new record appended;
no rejection path writes any partial record. -/
theorem rejection_leaves_ledger_unchanged (ho : String → Option HostelBoundary)
    (em : String → Except String (List ℚ)) (cs : List ℚ → List ℚ → ℚ)
    (users : List User) (L : List Attendance) (req : Request) :
    ((∀ a, (processOne ho em cs users L req).res ≠ Res.created a) ∧
      (processOne ho em cs users L req).ledger = L) ∨
    ((processOne ho em cs users L req).res = Res.created (mkRecord req) ∧
      (processOne ho em cs users L req).ledger = L ++ [mkRecord req]) := by
  rcases processOne_cases ho em cs users L req with ⟨h1, h2⟩ | ⟨h1, h2, _⟩
  · exact Or.inl ⟨h1, h2⟩
  · exact Or.inr ⟨h1, h2⟩

/-- Claim C3.  For a resolved subject with no stored enrollment embedding
(absent or empty): the embedding generator is never invoked for the
request, whatever path it takes; and if the request asserts presence,
carries a photo, and passes the duplicate and geofence gates, it is
rejected with the missing-enrollment error, leaving the ledger unchanged,
with zero embedding calls. -/
theorem missing_enrollment_short_circuit (ho : String → Option HostelBoundary)
    (em : String → Except String (List ℚ)) (cs : List ℚ → List ℚ → ℚ)
    (users : List User) (L : List Attendance) (req : Request) :
    (∀ u, findUser users req.userId = some u →
        (u.faceEmbedding = none ∨ u.faceEmbedding = some []) →
        (processOne ho em cs users L req).embedCalls = 0) ∧
    (∀ u, findUser users req.userId = some u →
        (u.faceEmbedding = none ∨ u.faceEmbedding = some []) →
        req.isPresent = true → strTruthy req.photoUrl = true →
        dupExists L req = false → geofenceRejects ho u req = false →
        processOne ho em cs users L req = ⟨Res.faceNotRegistered, L, 0⟩) := by
  constructor
  · intro u hu hmiss
    have hpc : (processOne ho em cs users L req).embedCalls =
        (gatesResult ho em cs users L req).2 := rfl
    rw [hpc, gatesResult_user ho em cs users L req u hu]
    by_cases hdup : dupExists L req
    · rw [if_pos hdup]
    · rw [if_neg hdup]
      by_cases hgeo : geofenceRejects ho u req = true
      · rw [if_pos hgeo]
      · rw [if_neg hgeo]
        by_cases hface : (req.isPresent && strTruthy req.photoUrl) = true
        · rw [if_pos hface]
          rcases hmiss with h1 | h1 <;> simp [h1]
        · rw [if_neg hface]
  · intro u hu hmiss hpres hphoto hdup hgeo
    have hg : gatesResult ho em cs users L req =
        (Res.faceNotRegistered, 0) := by
      rw [gatesResult_user ho em cs users L req u hu,
        if_neg (by simp [hdup]), if_neg (by simp [hgeo]),
        if_pos (by simp [hpres, hphoto])]
      rcases hmiss with h1 | h1 <;> simp [h1]
    exact processOne_eq_reject ho em cs users L req _ 0 hg (by simp)

/-- Witness for C3: a present check-in with a photo for an unenrolled
subject is rejected with the missing-enrollment error, no embedding call,
ledger unchanged. -/
theorem missing_enrollment_short_circuit_witness :
    processOne noHostels embedOk calcFifty [userNoFace] [] reqPhoto =
      ⟨Res.faceNotRegistered, [], 0⟩ :=
  (missing_enrollment_short_circuit noHostels embedOk calcFifty [userNoFace]
    [] reqPhoto).2 userNoFace rfl (Or.inl rfl) rfl rfl rfl rfl

/-- Claim C4.  At the biometric gate (enrolled subject, present, photo,
duplicate and geofence gates passed, embedding generated): the request is
accepted (201 commit) if and only if the similarity score reaches the
fixed threshold 50 — a score below 50 yields the face-mismatch rejection
carrying exactly the computed score, and a score of 50 or more commits. -/
theorem similarity_threshold_gate (ho : String → Option HostelBoundary)
    (em : String → Except String (List ℚ)) (cs : List ℚ → List ℚ → ℚ)
    (users : List User) (L : List Attendance) (req : Request) (u : User)
    (emb probe : List ℚ)
    (hu : findUser users req.userId = some u)
    (hemb : u.faceEmbedding = some emb) (hne : emb.isEmpty = false)
    (hpres : req.isPresent = true) (hphoto : strTruthy req.photoUrl = true)
    (hdup : dupExists L req = false) (hgeo : geofenceRejects ho u req = false)
    (hpr : em ((sanitizePhotoUrl req.photoUrl).getD "") = Except.ok probe) :
    (cs emb probe < 50 →
      processOne ho em cs users L req =
        ⟨Res.faceMismatch (cs emb probe), L, 1⟩) ∧
    (50 ≤ cs emb probe →
      processOne ho em cs users L req =
        ⟨Res.created (mkRecord req), L ++ [mkRecord req], 1⟩) := by
  have hbase : gatesResult ho em cs users L req =
      (if cs emb probe < 50 then (.faceMismatch (cs emb probe), 1)
       else (.created (mkRecord req), 1)) := by
    rw [gatesResult_user ho em cs users L req u hu, if_neg (by simp [hdup]),
      if_neg (by simp [hgeo]), if_pos (by simp [hpres, hphoto])]
    simp only [hemb]
    rw [if_neg (by simp [hne])]
    simp only [hpr]
  constructor
  · intro hs
    have hg : gatesResult ho em cs users L req =
        (Res.faceMismatch (cs emb probe), 1) := by
      rw [hbase, if_pos hs]
    exact processOne_eq_reject ho em cs users L req _ 1 hg (by simp)
  · intro hs
    have hg : gatesResult ho em cs users L req =
        (Res.created (mkRecord req), 1) := by
      rw [hbase, if_neg (not_lt.mpr hs)]
    exact processOne_eq_created ho em cs users L req _ 1 hg

/-- Witness for C4: with the similarity collaborator returning exactly 50
the request commits (boundary counts as accept); returning 49.99 it is
rejected with the face-mismatch error carrying 49.99. -/
theorem similarity_threshold_gate_witness :
    processOne noHostels embedOk calcFifty [userA] [] reqPhoto =
      ⟨Res.created (mkRecord reqPhoto), [mkRecord reqPhoto], 1⟩ ∧
    processOne noHostels embedOk calcLow [userA] [] reqPhoto =
      ⟨Res.faceMismatch (4999 / 100), [], 1⟩ := by
  constructor
  · exact (similarity_threshold_gate noHostels embedOk calcFifty [userA] []
      reqPhoto userA [1] [1] rfl rfl rfl rfl rfl rfl rfl rfl).2
      (by norm_num [calcFifty])
  · exact (similarity_threshold_gate noHostels embedOk calcLow [userA] []
      reqPhoto userA [1] [1] rfl rfl rfl rfl rfl rfl rfl rfl).1
      (by norm_num [calcLow])

/-- Claim C8.  A present check-in without a photo skips the biometric gate
entirely: for any stored enrollment state (the conclusion does not depend
on `u.faceEmbedding`), provided the duplicate and geofence gates pass,
the request commits an isPresent=true record with zero embedding calls. -/
theorem no_photo_skips_biometric (ho : String → Option HostelBoundary)
    (em : String → Except String (List ℚ)) (cs : List ℚ → List ℚ → ℚ)
    (users : List User) (L : List Attendance) (req : Request) (u : User)
    (hu : findUser users req.userId = some u)
    (hpres : req.isPresent = true) (hphoto : strTruthy req.photoUrl = false)
    (hdup : dupExists L req = false)
    (hgeo : geofenceRejects ho u req = false) :
    processOne ho em cs users L req =
      ⟨Res.created (mkRecord req), L ++ [mkRecord req], 0⟩ ∧
    (mkRecord req).isPresent = true := by
  have hg : gatesResult ho em cs users L req =
      (Res.created (mkRecord req), 0) := by
    rw [gatesResult_user ho em cs users L req u hu, if_neg (by simp [hdup]),
      if_neg (by simp [hgeo]), if_neg (by simp [hphoto])]
  refine ⟨processOne_eq_created ho em cs users L req _ 0 hg, ?_⟩
  simp [mkRecord, hpres]

/-- Witness for C8: an unenrolled subject checking in present without a
photo gets a 201 commit of an isPresent=true record, zero embedding
calls. -/
theorem no_photo_skips_biometric_witness :
    processOne noHostels embedOk calcFifty [userNoFace] [] reqNoPhoto =
      ⟨Res.created (mkRecord reqNoPhoto), [mkRecord reqNoPhoto], 0⟩ ∧
    (mkRecord reqNoPhoto).isPresent = true :=
  no_photo_skips_biometric noHostels embedOk calcFifty [userNoFace] []
    reqNoPhoto userNoFace rfl rfl rfl rfl rfl

/-- Counterexample for C6 as stated: `hasMarkedToday` answers `true` for a
ledger whose only record in the widened window has isPresent=false — the
route's `findOne` filter has no `isPresent` condition, so "marked" does
not mean an isPresent=true record exists. -/
theorem hasMarkedToday_counterexample :
    hasMarkedToday [recFalse] 1 0 = true ∧
      ∀ r ∈ [recFalse], r.isPresent = false := by
  refine ⟨rfl, ?_⟩
  intro r hr
  simp only [List.mem_singleton] at hr
  subst hr
  rfl

/-- Claim C6, amended: `hasMarkedToday(subjectId, date)` returns true if
and only if the subject has some attendance record — present or not —
whose stored date falls within the calendar day of the given date widened
by one day on each side. -/
theorem hasMarkedToday_iff (L : List Attendance) (uid : ℕ) (date : ℤ) :
    hasMarkedToday L uid date = true ↔
      ∃ r ∈ L, r.userId = uid ∧ dayStart date - dayLen ≤ r.date ∧
        r.date ≤ dayStart date + (dayLen - 1) + dayLen := by
  unfold hasMarkedToday
  rw [List.any_eq_true]
  constructor
  · rintro ⟨r, hr, hp⟩
    simp only [Bool.and_eq_true, beq_iff_eq, decide_eq_true_eq] at hp
    exact ⟨r, hr, hp.1.1, hp.1.2, hp.2⟩
  · rintro ⟨r, hr, h1, h2, h3⟩
    refine ⟨r, hr, ?_⟩
    simp only [Bool.and_eq_true, beq_iff_eq, decide_eq_true_eq]
    exact ⟨⟨h1, h2⟩, h3⟩

/-- Claim C2 refutation (code bug): in the interleaving where both
requests pass DuplicateCheck against the initial ledger before either
commit runs, both requests return 201 Created and the ledger ends with two
isPresent=true records for the same (subject, calendar day) — the save is
a plain insert with no unique constraint, so the uniqueness invariant is
not re-asserted at Commit. -/
theorem race_two_commits :
    raceRun noHostels embedOk calcFifty [userA] [] reqNoPhoto reqNoPhoto =
      (Res.created recA, Res.created recA, [recA, recA]) ∧
    recA.isPresent = true ∧ ¬ atMostOnePresentPerKey [recA, recA] := by
  have hg : gatesResult noHostels embedOk calcFifty [userA] [] reqNoPhoto =
      (Res.created recA, 0) := by
    rw [gatesResult_user noHostels embedOk calcFifty [userA] [] reqNoPhoto
      userA rfl, if_neg (by simp [dupExists]),
      if_neg (by simp [geofenceRejects, noHostels]),
      if_neg (by simp [strTruthy, reqNoPhoto])]
    rfl
  refine ⟨?_, rfl, ?_⟩
  · simp [raceRun, hg]
  · intro hpair
    unfold atMostOnePresentPerKey at hpair
    have h1 := (List.pairwise_cons.mp hpair).1 recA (by simp) rfl rfl
    exact h1 ⟨rfl, rfl⟩

/-- Claim C5.  For a boundary carrying a (positive) radius with a center
as well as polygon points, the geofence evaluation uses radius mode — the
polygon is ignored — and the point is inside if and only if the haversine
distance (`getDistance`, Earth radius 6371000 m) from the point to the
center is at most the radius; exactly-equal distance counts as inside. -/
theorem radius_mode_precedence (cfg : HostelBoundary) (lat lon r : ℚ)
    (c : GeoPoint) (hr : cfg.radius = some r) (hpos : 0 < r)
    (hc : cfg.center = some c) (hpts : cfg.points ≠ []) :
    evalBoundary cfg lat lon = true ↔
      getDistance (lat : ℝ) (lon : ℝ) (c.latitude : ℝ) (c.longitude : ℝ) ≤
        (r : ℝ) := by
  unfold evalBoundary
  simp only [hr, hc]
  rw [if_neg (ne_of_gt hpos)]
  by_cases hd : getDistance (lat : ℝ) (lon : ℝ) (c.latitude : ℝ)
      (c.longitude : ℝ) ≤ (r : ℝ)
  · simp [hd]
  · simp [hd]

/-- Witness for C5: a concrete boundary carrying polygon points and a
positive radius with a center; the evaluation is the radius test. -/
theorem radius_mode_precedence_witness :
    evalBoundary cfgBoth 0 0 = true ↔
      getDistance ((0 : ℚ) : ℝ) ((0 : ℚ) : ℝ)
        (((⟨0, 0⟩ : GeoPoint).latitude : ℝ))
        (((⟨0, 0⟩ : GeoPoint).longitude : ℝ)) ≤ ((1000 : ℚ) : ℝ) :=
  radius_mode_precedence cfgBoth 0 0 1000 ⟨0, 0⟩ rfl (by norm_num) rfl
    (by simp [cfgBoth])
